import Mathlib

/-
Verification of the sertif-ta letter-PDF service.

The development shallowly embeds the pure logic of the repository:
  - `app/services/pdf_generator.py` (`PDFGenerator.save_pdf`, `PDFGenerator.generate`)
  - `app/utils/date_parser.py` (`parse_indonesian_date`)
  - `app/utils/school_info.py` (`preprocess_school_info`)
  - `app/services/cleanup.py` (`PDFCleanupService.cleanup_old_pdfs`)

Strings are modelled as Lean `String` (a list of characters); Python's
byte payloads are modelled by lists of bytes (only their length is ever
inspected by the code).  Filesystem effects are modelled by explicit
state (an abstract `FileSystem` for path resolution, a `DirState` for
the cleanup sweep); raising `ValueError` is modelled with `Except`.
Python's Unicode-aware `\w`/`\s`/`lower()` are modelled over ASCII,
which is faithful on every character class the claims quantify over.
-/

/-! ### Generic list helpers (Python `in`, `endswith`, `basename`, `replace`) -/

/-- Boolean prefix test on lists, mirroring Python's slice comparison. -/
def isPrefixB {α : Type} [DecidableEq α] : List α → List α → Bool
  | [], _ => true
  | _ :: _, [] => false
  | a :: as, b :: bs => if a = b then isPrefixB as bs else false

/-- Boolean contiguous-substring test: Python's `pat in hay` on strings. -/
def containsSub {α : Type} [DecidableEq α] : List α → List α → Bool
  | [], pat => pat.isEmpty
  | a :: t, pat => isPrefixB pat (a :: t) || containsSub t pat

/-- Boolean suffix test: Python's `str.endswith`. -/
def endsWithB {α : Type} [DecidableEq α] (l suf : List α) : Bool :=
  isPrefixB suf.reverse l.reverse

/-- Characters of the ".pdf" extension. -/
def pdfExtL : List Char := ['.', 'p', 'd', 'f']

/-- Longest slash-free prefix of a character list. -/
def takeUntilSlash : List Char → List Char
  | [] => []
  | c :: cs => if c = '/' then [] else c :: takeUntilSlash cs

/-- Left-to-right non-overlapping deletion of occurrences of `pat`, with an
explicit recursion budget (each step consumes at least one character, so a
budget of the list length is always enough). -/
def stripOccFuel (pat : List Char) : Nat → List Char → List Char
  | 0, l => l
  | _ + 1, [] => []
  | n + 1, c :: cs =>
    if pat ≠ [] ∧ isPrefixB pat (c :: cs) = true then
      stripOccFuel pat n (List.drop (pat.length - 1) cs)
    else
      c :: stripOccFuel pat n cs

/-- Python's `s.replace(pat, "")`: delete every occurrence of `pat`,
left to right, non-overlapping. -/
def stripOcc (pat l : List Char) : List Char :=
  stripOccFuel pat l.length l

/-- Python `pat in hay` for Lean strings. -/
def strContains (hay pat : String) : Bool := containsSub hay.data pat.data

/-- Python `s.endswith(pat)` for Lean strings. -/
def strEndsWith (s pat : String) : Bool := endsWithB s.data pat.data

/-- Python `s.startswith(pat)` for Lean strings. -/
def strStartsWith (s pat : String) : Bool := isPrefixB pat.data s.data

/-! ### The filename sanitizer and persist path of `PDFGenerator.save_pdf` -/

deriving instance DecidableEq for Except

/-- The `ValueError` cases raised by `PDFGenerator.save_pdf`. -/
inductive SaveError where
  | sizeExceeded
  | traversal
  | badChars
  | emptyFilename
deriving DecidableEq, Repr

/-- Maximum PDF file size (10MB), `PDFGenerator.MAX_PDF_SIZE`. -/
def MAX_PDF_SIZE : Nat := 10 * 1024 * 1024

/-- Python whitespace characters recognised by `str.split()` and `\s`
(ASCII fragment). -/
def isWS (c : Char) : Bool :=
  decide (c = ' ' ∨ c = '\t' ∨ c = '\n' ∨ c = '\r' ∨ c.val = 11 ∨ c.val = 12)

/-- One character of the class `[\w\s.-]` of `SAFE_FILENAME_PATTERN`
(ASCII fragment of Python's Unicode `\w`). -/
def isSafeChar (c : Char) : Bool :=
  c.isAlphanum || isWS c || decide (c = '_' ∨ c = '.' ∨ c = '-')

/-- The traversal test of `save_pdf`:
`".." in filename or "/" in filename or "\\" in filename`. -/
def hasTraversal (s : String) : Bool :=
  strContains s ".." || strContains s "/" || strContains s "\\"

/-- POSIX `os.path.basename`: everything after the last slash. -/
def basename (s : String) : String :=
  String.mk (takeUntilSlash s.data.reverse).reverse

/-- The variable `name_without_ext` of `save_pdf`:
`os.path.basename(filename).replace(".pdf", "")`. -/
def nameWithoutExt (s : String) : String :=
  String.mk (stripOcc pdfExtL (basename s).data)

/-- Full match of `SAFE_FILENAME_PATTERN`, the regex `^[\w\s.-]+$`. -/
def matchesSafePattern (s : String) : Bool :=
  !s.data.isEmpty && s.data.all isSafeChar

/-- Extension canonicalization of `save_pdf`: append ".pdf" unless present. -/
def withExt (s : String) : String :=
  if strEndsWith s ".pdf" then s else String.mk (s.data ++ pdfExtL)

/-- The filename checks and normalization performed inside
`PDFGenerator.save_pdf` (source lines 158-187), in source order:
traversal rejection on the raw input, then basename extraction, then the
allow-list pattern on the extension-stripped name, then extension
canonicalization, then the final emptiness check.  On success it returns
the name that is written under the output directory. -/
def sanitize_filename (s : String) : Except SaveError String :=
  if hasTraversal s then .error .traversal
  else if matchesSafePattern (nameWithoutExt s) = false then .error .badChars
  else if withExt (basename s) = "" ∨ withExt (basename s) = ".pdf" then .error .emptyFilename
  else .ok (withExt (basename s))

/-- `PDFGenerator.save_pdf`: the size guard runs first, then the filename
sanitizer; only when both pass are the bytes written (modelled by the
`Except.ok` result carrying the saved filename). -/
def save_pdf (pdfBytes : List Nat) (filename : String) : Except SaveError String :=
  if pdfBytes.length > MAX_PDF_SIZE then .error .sizeExceeded
  else sanitize_filename filename

/-! ### Helper lemmas about the string primitives -/

theorem mk_data (s : String) : String.mk s.data = s := rfl

theorem isPrefixB_self_append {α : Type} [DecidableEq α] (l t : List α) :
    isPrefixB l (l ++ t) = true := by
  induction l with
  | nil => rfl
  | cons a as ih => simp [isPrefixB, ih]

theorem containsSub_single_of_mem {α : Type} [DecidableEq α] {l : List α} {a : α}
    (h : a ∈ l) : containsSub l [a] = true := by
  induction l with
  | nil => cases h
  | cons c t ih =>
    rcases List.mem_cons.mp h with h1 | h2
    · subst h1
      simp [containsSub, isPrefixB]
    · simp [containsSub, ih h2]

theorem not_mem_of_containsSub_single_false {α : Type} [DecidableEq α] {l : List α} {a : α}
    (h : containsSub l [a] = false) : a ∉ l := by
  intro hmem
  rw [containsSub_single_of_mem hmem] at h
  cases h

theorem containsSub_single_false_of_all {l : List Char} {p : Char → Bool} {a : Char}
    (hall : l.all p = true) (ha : p a = false) : containsSub l [a] = false := by
  cases hc : containsSub l [a]
  · rfl
  · exfalso
    have hmem : a ∈ l := by
      induction l with
      | nil => simp [containsSub] at hc
      | cons c t ih =>
        by_cases hac : a = c
        · exact hac ▸ List.mem_cons_self a t
        · apply List.mem_cons_of_mem
          apply ih (List.all_eq_true.mpr fun x hx => List.all_eq_true.mp hall x (List.mem_cons_of_mem c hx))
          simp [containsSub, isPrefixB, hac] at hc
          simpa [containsSub] using hc
    rw [List.all_eq_true.mp hall a hmem] at ha
    cases ha

theorem takeUntilSlash_of_no_slash {l : List Char} (h : '/' ∉ l) :
    takeUntilSlash l = l := by
  induction l with
  | nil => rfl
  | cons c cs ih =>
    have hc : ¬ c = '/' := fun he => h (he ▸ List.mem_cons_self c cs)
    simp only [takeUntilSlash]
    rw [if_neg hc]
    rw [ih (fun hm => h (List.mem_cons_of_mem c hm))]

theorem basename_eq_self (s : String) (h : strContains s "/" = false) :
    basename s = s := by
  have hmem : '/' ∉ s.data := not_mem_of_containsSub_single_false h
  have hmem2 : '/' ∉ s.data.reverse := fun hm => hmem (List.mem_reverse.mp hm)
  unfold basename
  rw [takeUntilSlash_of_no_slash hmem2, List.reverse_reverse, mk_data]

theorem stripOccFuel_mem {pat : List Char} :
    ∀ (n : Nat) (l : List Char) (c : Char), c ∈ stripOccFuel pat n l → c ∈ l := by
  intro n
  induction n with
  | zero => intro l c hc; exact hc
  | succ m ih =>
    intro l c hc
    cases l with
    | nil => cases hc
    | cons a t =>
      rw [stripOccFuel] at hc
      split at hc
      · have h1 := ih _ _ hc
        exact List.mem_cons_of_mem a (List.mem_of_mem_drop h1)
      · rcases List.mem_cons.mp hc with h1 | h2
        · exact h1 ▸ List.mem_cons_self a t
        · exact List.mem_cons_of_mem a (ih _ _ h2)

theorem stripOcc_mem {pat l : List Char} {c : Char} (h : c ∈ stripOcc pat l) : c ∈ l :=
  stripOccFuel_mem l.length l c h

theorem strEndsWith_mk_append_ext (s : String) :
    strEndsWith (String.mk (s.data ++ pdfExtL)) ".pdf" = true := by
  show endsWithB (s.data ++ pdfExtL) pdfExtL = true
  unfold endsWithB
  rw [List.reverse_append]
  exact isPrefixB_self_append _ _

example : sanitize_filename "report" = .ok "report.pdf" := by decide
example : sanitize_filename "doc.pdf" = .ok "doc.pdf" := by decide
example : sanitize_filename "../../etc/passwd" = .error .traversal := by decide
example : sanitize_filename ".pdf" = .error .badChars := by decide
example : sanitize_filename "a?" = .error .badChars := by decide
example : sanitize_filename "." = .ok "..pdf" := by decide

/-- The sanitizer part of `save_pdf` can never produce the size-limit
error: that error is raised only by the byte-size guard. -/
theorem sanitize_filename_ne_sizeExceeded (s : String) :
    sanitize_filename s ≠ .error .sizeExceeded := by
  unfold sanitize_filename
  split
  · simp
  · split
    · simp
    · split
      · simp
      · simp

/-- C1: for every filename containing "..", "/", or a backslash, and for
every byte payload, `save_pdf` fails with some error (so nothing is
written), and whenever the payload passes the size guard the error is the
traversal rejection, raised on the raw input before basename extraction:
even "dir/safe", whose final component alone would be acceptable, is
rejected rather than stripped. -/
theorem C1_traversal_always_rejected (pdfBytes : List Nat) (filename : String)
    (h : (strContains filename ".." || strContains filename "/" || strContains filename "\\") = true) :
    (∃ e, save_pdf pdfBytes filename = .error e) ∧
    (pdfBytes.length ≤ MAX_PDF_SIZE → save_pdf pdfBytes filename = .error .traversal) := by
  have htr : hasTraversal filename = true := h
  constructor
  · by_cases hs : pdfBytes.length > MAX_PDF_SIZE
    · exact ⟨.sizeExceeded, by simp [save_pdf, hs]⟩
    · exact ⟨.traversal, by simp [save_pdf, hs, sanitize_filename, htr]⟩
  · intro hle
    have hs : ¬ pdfBytes.length > MAX_PDF_SIZE := by omega
    simp [save_pdf, hs, sanitize_filename, htr]

/-- C1 witness: the traversal name "dir/safe" with an empty payload. -/
theorem C1_traversal_always_rejected_witness :
    save_pdf [] "dir/safe" = .error .traversal :=
  (C1_traversal_always_rejected [] "dir/safe" (by decide)).2 (by decide)

/-- C2: every payload larger than 10 MiB is rejected with the size-limit
error, for every filename whatsoever: the size guard runs before the
filename sanitization in the persist path. -/
theorem C2_oversize_always_size_error (pdfBytes : List Nat) (filename : String)
    (h : pdfBytes.length > MAX_PDF_SIZE) :
    save_pdf pdfBytes filename = .error .sizeExceeded := by
  simp [save_pdf, h]

/-- C2 witness: a payload of 10 MiB + 1 bytes with an invalid (traversal)
filename still produces the size-limit error. -/
theorem C2_oversize_always_size_error_witness :
    save_pdf (List.replicate (MAX_PDF_SIZE + 1) 0) "../evil" = .error .sizeExceeded :=
  C2_oversize_always_size_error _ _ (by rw [List.length_replicate]; omega)

/-- C10: the 10 MiB bound is exclusive: a payload of exactly
`MAX_PDF_SIZE` bytes never produces the size-limit error (for any
filename), and conversely the size-limit error only occurs for payloads
strictly larger than the bound. -/
theorem C10_size_bound_exclusive (pdfBytes : List Nat) (filename : String) :
    (pdfBytes.length = MAX_PDF_SIZE → save_pdf pdfBytes filename ≠ .error .sizeExceeded) ∧
    (save_pdf pdfBytes filename = .error .sizeExceeded → pdfBytes.length > MAX_PDF_SIZE) := by
  constructor
  · intro hlen
    have hs : ¬ pdfBytes.length > MAX_PDF_SIZE := by omega
    simp only [save_pdf, if_neg hs]
    exact sanitize_filename_ne_sizeExceeded filename
  · intro h
    by_cases hs : pdfBytes.length > MAX_PDF_SIZE
    · exact hs
    · exfalso
      unfold save_pdf at h
      rw [if_neg hs] at h
      exact sanitize_filename_ne_sizeExceeded filename h

/-- C10 witness: a payload of exactly 10 MiB with a valid filename. -/
theorem C10_size_bound_exclusive_witness :
    save_pdf (List.replicate MAX_PDF_SIZE 0) "laporan" ≠ .error .sizeExceeded :=
  (C10_size_bound_exclusive (List.replicate MAX_PDF_SIZE 0) "laporan").1
    (by rw [List.length_replicate])

/-- C9: the filename sanitization of `save_pdf` is idempotent on
already-valid inputs: when sanitization succeeds on an `x` that already
ends in ".pdf", the sanitized name is `x` itself, hence sanitizing twice
equals sanitizing once. -/
theorem C9_sanitize_idempotent (x y : String)
    (h : sanitize_filename x = .ok y) (hx : strEndsWith x ".pdf" = true) :
    y = x ∧ sanitize_filename y = sanitize_filename x := by
  have hbT : hasTraversal x = false := by
    cases hT : hasTraversal x
    · rfl
    · exfalso
      unfold sanitize_filename at h
      rw [hT] at h
      simp at h
  have hnos : strContains x "/" = false := by
    cases hsl : strContains x "/"
    · rfl
    · exfalso
      unfold hasTraversal at hbT
      rw [hsl] at hbT
      simp at hbT
  have hbase : basename x = x := basename_eq_self x hnos
  unfold sanitize_filename at h
  rw [hbT] at h
  simp only [Bool.false_eq_true, if_false] at h
  rw [hbase] at h
  unfold withExt at h
  rw [hx] at h
  simp only [if_true] at h
  split at h
  · cases h
  · split at h
    · cases h
    · have hyx : y = x := by
        injection h with h1
        exact h1.symm
      exact ⟨hyx, by rw [hyx]⟩

/-- One character of the allow-list the C3 claim quantifies over:
letters, digits, spaces, underscores, hyphens, dots. -/
def isAllowedChar (c : Char) : Bool :=
  c.isAlpha || c.isDigit || decide (c = ' ' ∨ c = '_' ∨ c = '-' ∨ c = '.')

theorem isSafeChar_of_isAllowedChar {c : Char} (h : isAllowedChar c = true) :
    isSafeChar c = true := by
  unfold isAllowedChar at h
  unfold isSafeChar Char.isAlphanum
  rcases Bool.or_eq_true_iff.mp h with h1 | h2
  · rcases Bool.or_eq_true_iff.mp h1 with ha | hd
    · simp [ha]
    · simp [hd]
  · rcases of_decide_eq_true h2 with hc | hc | hc | hc <;>
      subst hc <;> simp [isWS]

/-- C3 counterexample: the string ".." consists solely of the allowed
characters (it is two dots), yet `save_pdf` rejects it with the
traversal error, so sanitization does not succeed on it. -/
theorem C3_counterexample :
    ("..".data ≠ [] ∧ "..".data.all isAllowedChar = true) ∧
    save_pdf [] ".." = .error .traversal := by
  decide

/-- C3 amended: for every non-empty string of letters, digits, spaces,
underscores, hyphens and dots that does not contain two consecutive dots
and that is not exhausted by deleting every occurrence of ".pdf", the
filename sanitization in `save_pdf` succeeds (given a payload within the
size limit) and the saved filename ends with ".pdf". -/
theorem C3_amended_valid_names_succeed (pdfBytes : List Nat) (s : String)
    (hsize : pdfBytes.length ≤ MAX_PDF_SIZE)
    (hne : s.data ≠ [])
    (hall : s.data.all isAllowedChar = true)
    (hdd : strContains s ".." = false)
    (hext : nameWithoutExt s ≠ "") :
    ∃ r, save_pdf pdfBytes s = .ok r ∧ strEndsWith r ".pdf" = true := by
  have hslash : strContains s "/" = false :=
    containsSub_single_false_of_all hall (by decide)
  have hback : strContains s "\\" = false :=
    containsSub_single_false_of_all hall (by decide)
  have hbT : hasTraversal s = false := by
    unfold hasTraversal
    rw [hdd, hslash, hback]
    rfl
  have hbase : basename s = s := basename_eq_self s hslash
  have hne2 : stripOcc pdfExtL s.data ≠ [] := by
    intro h0
    apply hext
    unfold nameWithoutExt
    rw [hbase, h0]
  have hpat : matchesSafePattern (nameWithoutExt s) = true := by
    unfold matchesSafePattern nameWithoutExt
    rw [hbase]
    have hdata : (String.mk (stripOcc pdfExtL s.data)).data = stripOcc pdfExtL s.data := rfl
    rw [hdata]
    have h1 : (stripOcc pdfExtL s.data).isEmpty = false := by
      cases hc : stripOcc pdfExtL s.data
      · exact absurd hc hne2
      · rfl
    have h2 : (stripOcc pdfExtL s.data).all isSafeChar = true :=
      List.all_eq_true.mpr fun c hc =>
        isSafeChar_of_isAllowedChar (List.all_eq_true.mp hall c (stripOcc_mem hc))
    rw [h1, h2]
    rfl
  have hsz : ¬ pdfBytes.length > MAX_PDF_SIZE := by omega
  unfold save_pdf
  rw [if_neg hsz]
  unfold sanitize_filename
  rw [hbT, hpat]
  simp only [Bool.false_eq_true, if_false, Bool.true_eq_false]
  rw [hbase]
  unfold withExt
  cases hend : strEndsWith s ".pdf"
  · simp only [Bool.false_eq_true, if_false]
    have hnil : ¬ (String.mk (s.data ++ pdfExtL) = "" ∨ String.mk (s.data ++ pdfExtL) = ".pdf") := by
      rintro (h0 | h0)
      · have : s.data ++ pdfExtL = ([] : List Char) := congrArg String.data h0
        simp [pdfExtL] at this
      · have hd : s.data ++ pdfExtL = pdfExtL := congrArg String.data h0
        have : s.data.length + pdfExtL.length = pdfExtL.length := by
          rw [← List.length_append, hd]
        have hz : s.data.length = 0 := by omega
        exact hne (List.eq_nil_of_length_eq_zero hz)
    rw [if_neg hnil]
    exact ⟨_, rfl, strEndsWith_mk_append_ext s⟩
  · simp only [if_true]
    have hnil : ¬ (s = "" ∨ s = ".pdf") := by
      rintro (h0 | h0)
      · exact hne (by rw [h0])
      · apply hne2
        have : s.data = ".pdf".data := by rw [h0]
        rw [this]
        decide
    rw [if_neg hnil]
    exact ⟨_, rfl, hend⟩

/-- C3 amended witness: the plain name "report" with an empty payload. -/
theorem C3_amended_valid_names_succeed_witness :
    ∃ r, save_pdf [] "report" = .ok r ∧ strEndsWith r ".pdf" = true :=
  C3_amended_valid_names_succeed [] "report" (by decide) (by decide) (by decide)
    (by decide) (by decide)

/-- C9 witness: "doc.pdf" sanitizes to itself. -/
theorem C9_sanitize_idempotent_witness :
    "doc.pdf" = "doc.pdf" ∧ sanitize_filename "doc.pdf" = sanitize_filename "doc.pdf" :=
  C9_sanitize_idempotent "doc.pdf" "doc.pdf" (by decide) (by decide)

/-! ### The Indonesian date parser, `app/utils/date_parser.py` -/

/-- Python `str.split()` with no argument: split on runs of whitespace,
discarding empty tokens; the accumulator holds the current token
reversed. -/
def splitWS : List Char → List Char → List (List Char)
  | [], acc => if acc.isEmpty then [] else [acc.reverse]
  | c :: cs, acc =>
    if isWS c then
      if acc.isEmpty then splitWS cs [] else acc.reverse :: splitWS cs []
    else splitWS cs (c :: acc)

/-- Whitespace-separated tokens of a string: Python
`date_str.strip().split()` (the `strip` is absorbed, since `split()`
already discards empty tokens at both ends). -/
def tokens (s : String) : List (List Char) := splitWS s.data []

/-- Python `s.zfill(2)`: left-pad with zeros to width two, keeping an
optional leading sign in front of the padding. -/
def zfill2 (l : List Char) : List Char :=
  if 2 ≤ l.length then l
  else match l with
    | [] => ['0', '0']
    | [c] => if c = '+' ∨ c = '-' then [c, '0'] else ['0', c]
    | other => other

/-- Lookup in an association list with string keys (Python `dict` access;
the embedded dictionaries have distinct keys, so first match is the
value). -/
def lookupKey {V : Type} : List (String × V) → String → Option V
  | [], _ => none
  | p :: t, key => if p.1 = key then some p.2 else lookupKey t key

/-- The fixed 12-entry Indonesian month table `MONTH_MAP`. -/
def MONTH_MAP : List (String × String) :=
  [("januari", "01"), ("februari", "02"), ("maret", "03"), ("april", "04"),
   ("mei", "05"), ("juni", "06"), ("juli", "07"), ("agustus", "08"),
   ("september", "09"), ("oktober", "10"), ("november", "11"), ("desember", "12")]

/-- Python `str.lower()` (ASCII fragment; the month names are ASCII). -/
def lowerStr (l : List Char) : List Char := l.map Char.toLower

/-- Python `date_str.replace(" ", "-").replace("/", "-")`: the mechanical
fallback transform of the date parser (single-character replacements
compose into one map). -/
def fallbackTransform (s : String) : String :=
  String.mk (s.data.map fun c => if c = ' ' ∨ c = '/' then '-' else c)

/-- `parse_indonesian_date` of `app/utils/date_parser.py`.  Every
operation in the guarded branch is total once the length guard holds, so
the source's `try/except` can never fire and the function is modelled as
the total function it is. -/
def parse_indonesian_date (s : String) : String :=
  let parts := tokens s
  if 3 ≤ parts.length then
    let day := zfill2 (parts.getD 0 [])
    let month := (lookupKey MONTH_MAP (String.mk (lowerStr (parts.getD 1 [])))).getD "00"
    let year := parts.getD 2 []
    String.mk (day ++ '-' :: month.data ++ '-' :: year)
  else fallbackTransform s

example : parse_indonesian_date "12 Januari 2025" = "12-01-2025" := by decide
example : parse_indonesian_date "1 InvalidMonth 2024" = "01-00-2024" := by decide
example : parse_indonesian_date "2024/01/05" = "2024-01-05" := by decide

/-! ### The school-info normalizer, `app/utils/school_info.py` -/

/-- The `SchoolInfo` schema of `app/schemas/letter.py` (optional fields
are `Option`; Python `None` is `none`). -/
structure SchoolInfo where
  nama_sekolah : String
  alamat_jalan : String
  kelurahan : Option String
  kecamatan : Option String
  kab_kota : Option String
  provinsi : Option String
  kode_pos : Option String
  telepon : Option String
  email : Option String
  website : Option String
  logo_url : Option String
deriving DecidableEq, Repr

/-- Python condition `school.field and school.field in addr` of
`preprocess_school_info`: the field is truthy (not `None` and not the
empty string) and occurs as a substring of the street address. -/
def fieldDupInAddr (addr : String) : Option String → Bool
  | none => false
  | some v => !v.data.isEmpty && containsSub addr.data v.data

/-- `preprocess_school_info`: clear `kelurahan`, then `kecamatan`, when
the field is truthy and already occurs inside `alamat_jalan` (which the
function never modifies). -/
def preprocess_school_info (school : SchoolInfo) : SchoolInfo :=
  let addr := school.alamat_jalan
  let s1 :=
    if fieldDupInAddr addr school.kelurahan then { school with kelurahan := none }
    else school
  if fieldDupInAddr addr s1.kecamatan then { s1 with kecamatan := none }
  else s1

/-- C7: `preprocess_school_info` is total and clears `kelurahan` exactly
when it is set (truthy) and occurs as a substring of `alamat_jalan`,
independently clears `kecamatan` under the same condition on
`kecamatan`, and leaves all nine other fields (including `alamat_jalan`)
unchanged; together with the concrete example of the claim, where the
address "Jl. Test, Tunjungtirto" clears kelurahan "Tunjungtirto" while
kecamatan "Singosari" is untouched. -/
theorem C7_school_info_normalizer (school : SchoolInfo) :
    (preprocess_school_info school).kelurahan =
      (if fieldDupInAddr school.alamat_jalan school.kelurahan then none else school.kelurahan) ∧
    (preprocess_school_info school).kecamatan =
      (if fieldDupInAddr school.alamat_jalan school.kecamatan then none else school.kecamatan) ∧
    (preprocess_school_info school).nama_sekolah = school.nama_sekolah ∧
    (preprocess_school_info school).alamat_jalan = school.alamat_jalan ∧
    (preprocess_school_info school).kab_kota = school.kab_kota ∧
    (preprocess_school_info school).provinsi = school.provinsi ∧
    (preprocess_school_info school).kode_pos = school.kode_pos ∧
    (preprocess_school_info school).telepon = school.telepon ∧
    (preprocess_school_info school).email = school.email ∧
    (preprocess_school_info school).website = school.website ∧
    (preprocess_school_info school).logo_url = school.logo_url ∧
    preprocess_school_info
        ⟨"SMK Test", "Jl. Test, Tunjungtirto", some "Tunjungtirto", some "Singosari",
          some "Kab. Malang", some "Jawa Timur", none, none, none, none, none⟩ =
      ⟨"SMK Test", "Jl. Test, Tunjungtirto", none, some "Singosari",
        some "Kab. Malang", some "Jawa Timur", none, none, none, none, none⟩ := by
  refine ⟨?_, ?_, ?_, ?_, ?_, ?_, ?_, ?_, ?_, ?_, ?_, by decide⟩
  all_goals
    unfold preprocess_school_info
    by_cases h1 : fieldDupInAddr school.alamat_jalan school.kelurahan = true <;>
      by_cases h2 : fieldDupInAddr school.alamat_jalan school.kecamatan = true <;>
        simp [h1, h2]

/-! ### Logo validation inside `PDFGenerator.generate` -/

/-- Abstract filesystem used by the logo validation of
`PDFGenerator.generate`: `resolve` canonicalizes a path (symlinks and
dot segments, `Path.resolve`), `pathPresent` is `Path.exists`, `isFile`
is `Path.is_file`. -/
structure FileSystem where
  resolve : String → String
  pathPresent : String → Bool
  isFile : String → Bool

/-- Construction-time environment of a `PDFGenerator`: its filesystem,
the static-assets directory `self.static_dir`, and the template files
its Jinja2 loader can find. -/
structure GenEnv where
  fs : FileSystem
  staticDir : String
  templates : List String

/-- The `ValueError` cases of `PDFGenerator.generate`. -/
inductive GenError where
  | unsupportedTemplate
  | templateNotFound
deriving DecidableEq, Repr

/-- Components of a path string: split on '/', dropping empty parts. -/
def splitSlash : List Char → List Char → List (List Char)
  | [], acc => if acc.isEmpty then [] else [acc.reverse]
  | c :: cs, acc =>
    if c = '/' then
      if acc.isEmpty then splitSlash cs [] else acc.reverse :: splitSlash cs []
    else splitSlash cs (c :: acc)

/-- Components of a path string. -/
def pathComponents (s : String) : List (List Char) := splitSlash s.data []

/-- Containment test realized by `Path.relative_to` on two canonical
(resolved) paths: it succeeds exactly when the parent's components are a
prefix of the child's (a `ValueError` otherwise, which the caller
catches as failure). -/
def isWithin (child parent : String) : Bool :=
  isPrefixB (pathComponents parent) (pathComponents child)

/-- pathlib's `/` join: an absolute right operand replaces the left. -/
def pathJoin (a b : String) : String :=
  if strStartsWith b "/" then b else String.mk (a.data ++ '/' :: b.data)

/-- The logo-path validation block of `PDFGenerator.generate` (source
lines 93-122): resolve the logo path; if it exists and is a regular
file, require containment of the resolved path in the resolved static
directory via `relative_to` (whose `ValueError` is caught, yielding no
logo); otherwise retry with the path joined under the static directory,
with the same containment check after resolution; every failure yields
`none` (fail closed). -/
def validateLogo (fs : FileSystem) (staticDir logoPath : String) : Option String :=
  if fs.pathPresent (fs.resolve logoPath) && fs.isFile (fs.resolve logoPath) then
    if isWithin (fs.resolve logoPath) (fs.resolve staticDir) then some logoPath
    else none
  else
    if fs.pathPresent (pathJoin staticDir logoPath) && fs.isFile (pathJoin staticDir logoPath) then
      if isWithin (fs.resolve (pathJoin staticDir logoPath)) (fs.resolve staticDir) then
        some ("static/" ++ logoPath)
      else none
    else none

/-- Python dict assignment `context["logo_path"] = v` on an
insertion-ordered association list: overwrite in place when the key is
present, append otherwise. -/
def setKey {V : Type} (l : List (String × V)) (k : String) (v : V) : List (String × V) :=
  if l.any (fun p => decide (p.1 = k)) then
    l.map (fun p => if p.1 = k then (k, v) else p)
  else l ++ [(k, v)]

/-- `PDFGenerator.SUPPORTED_TEMPLATES`. -/
def SUPPORTED_TEMPLATES : List String :=
  ["surat_dinas", "surat_edaran", "surat_pemberitahuan"]

/-- `PDFGenerator.generate` of `app/services/pdf_generator.py`.  The
Jinja2 render and the WeasyPrint conversion are external black boxes, so
the function returns the context it builds, which is exactly what the
template receives as `data`; the value type `V` of the context is
abstract, with `inj` injecting the logo-path string into it.  A falsy
(empty) logo reference skips validation entirely. -/
def generate {V : Type} (inj : String → V) (env : GenEnv) (templateName : String)
    (data : List (String × V)) (logoPath : Option String) :
    Except GenError (List (String × V)) :=
  if SUPPORTED_TEMPLATES.contains templateName = false then .error .unsupportedTemplate
  else if env.templates.contains (templateName ++ ".html") = false then .error .templateNotFound
  else
    match logoPath with
    | none => .ok data
    | some lp =>
      if lp = "" then .ok data
      else
        match validateLogo env.fs env.staticDir lp with
        | some v => .ok (setKey data "logo_path" (inj v))
        | none => .ok data

/-- Success condition of the logo resolution, in the claim's terms: some
resolution of the reference (direct, or joined under the static
directory) is an existing regular file whose canonical location is
contained in the canonical static directory. -/
def logoResolvesSafely (fs : FileSystem) (staticDir logoPath : String) : Bool :=
  (fs.pathPresent (fs.resolve logoPath) && fs.isFile (fs.resolve logoPath) &&
    isWithin (fs.resolve logoPath) (fs.resolve staticDir)) ||
  (fs.pathPresent (pathJoin staticDir logoPath) && fs.isFile (pathJoin staticDir logoPath) &&
    isWithin (fs.resolve (pathJoin staticDir logoPath)) (fs.resolve staticDir))

theorem validateLogo_none_of_not_safe (fs : FileSystem) (staticDir lp : String)
    (h : logoResolvesSafely fs staticDir lp = false) :
    validateLogo fs staticDir lp = none := by
  unfold logoResolvesSafely at h
  unfold validateLogo
  cases hg1 : fs.pathPresent (fs.resolve lp) && fs.isFile (fs.resolve lp) <;>
    cases hw1 : isWithin (fs.resolve lp) (fs.resolve staticDir) <;>
      cases hg2 : fs.pathPresent (pathJoin staticDir lp) && fs.isFile (pathJoin staticDir lp) <;>
        cases hw2 : isWithin (fs.resolve (pathJoin staticDir lp)) (fs.resolve staticDir) <;>
          simp_all

theorem lookupKey_map_update {V : Type} (l : List (String × V)) (k : String) (v : V)
    (k' : String) (hk : k' ≠ k) :
    lookupKey (l.map (fun p => if p.1 = k then (k, v) else p)) k' = lookupKey l k' := by
  induction l with
  | nil => rfl
  | cons p t ih =>
    simp only [List.map_cons, lookupKey]
    by_cases hpk : p.1 = k
    · rw [if_pos hpk]
      rw [if_neg (fun he : (k, v).1 = k' => hk he.symm)]
      rw [if_neg (fun he : p.1 = k' => hk (hpk.symm.trans he).symm)]
      exact ih
    · rw [if_neg hpk]
      by_cases hpk' : p.1 = k'
      · rw [if_pos hpk']
        rw [if_pos hpk']
      · rw [if_neg hpk']
        rw [if_neg hpk']
        exact ih

theorem lookupKey_append_single {V : Type} (l : List (String × V)) (k : String) (v : V)
    (k' : String) :
    lookupKey (l ++ [(k, v)]) k' =
      match lookupKey l k' with
      | some w => some w
      | none => if k = k' then some v else none := by
  induction l with
  | nil => simp [lookupKey]
  | cons p t ih =>
    simp only [List.cons_append, lookupKey]
    by_cases hpk' : p.1 = k'
    · rw [if_pos hpk']
      rw [if_pos hpk']
    · rw [if_neg hpk']
      rw [if_neg hpk']
      exact ih

theorem lookupKey_map_self {V : Type} (l : List (String × V)) (k : String) (v : V)
    (hany : l.any (fun p => decide (p.1 = k)) = true) :
    lookupKey (l.map (fun p => if p.1 = k then (k, v) else p)) k = some v := by
  induction l with
  | nil => cases hany
  | cons p t ih =>
    simp only [List.map_cons, lookupKey]
    by_cases hpk : p.1 = k
    · rw [if_pos hpk]
      rw [if_pos (rfl : (k, v).1 = k)]
    · rw [if_neg hpk]
      rw [if_neg hpk]
      apply ih
      rw [List.any_cons] at hany
      simpa [hpk] using hany

theorem lookupKey_append_self {V : Type} (l : List (String × V)) (k : String) (v : V)
    (hany : l.any (fun p => decide (p.1 = k)) = false) :
    lookupKey (l ++ [(k, v)]) k = some v := by
  induction l with
  | nil => simp [lookupKey]
  | cons p t ih =>
    rw [List.any_cons] at hany
    have hpk : ¬ p.1 = k := by
      intro he
      simp [he] at hany
    simp only [List.cons_append, lookupKey]
    rw [if_neg hpk]
    apply ih
    simpa [hpk] using hany

theorem lookupKey_setKey_self {V : Type} (l : List (String × V)) (k : String) (v : V) :
    lookupKey (setKey l k v) k = some v := by
  unfold setKey
  cases hany : l.any (fun p => decide (p.1 = k))
  · simp only [Bool.false_eq_true, if_false]
    exact lookupKey_append_self l k v hany
  · rw [if_pos rfl]
    exact lookupKey_map_self l k v hany

theorem lookupKey_setKey_preserve {V : Type} (l : List (String × V)) (k : String) (v : V)
    (k' : String) (h : (lookupKey l k').isSome = true) :
    (lookupKey (setKey l k v) k').isSome = true := by
  by_cases hk : k' = k
  · subst hk
    rw [lookupKey_setKey_self]
    rfl
  · unfold setKey
    cases hany : l.any (fun p => decide (p.1 = k))
    · simp only [Bool.false_eq_true, if_false]
      rw [lookupKey_append_single]
      cases hl : lookupKey l k'
      · rw [hl] at h
        exact Bool.noConfusion h
      · rfl
    · rw [if_pos rfl]
      rw [lookupKey_map_update l k v k' hk]
      exact h

/-- C4: for every logo reference that does not resolve (directly, or
joined under the static directory) to an existing regular file whose
canonical location is contained in the canonical static-assets
directory, `generate` on a supported and present template still succeeds
— the logo can never fail the render — and the context it builds has no
"logo_path" entry, so the out-of-bounds file is never handed to the
renderer; containment is the canonicalized resolve-then-relative_to
test, not a string-prefix comparison. -/
theorem C4_logo_fail_closed {V : Type} (inj : String → V) (env : GenEnv)
    (templateName : String) (data : List (String × V)) (lp : String)
    (hsupp : SUPPORTED_TEMPLATES.contains templateName = true)
    (htmpl : env.templates.contains (templateName ++ ".html") = true)
    (hdata : lookupKey data "logo_path" = none)
    (hsafe : logoResolvesSafely env.fs env.staticDir lp = false) :
    ∃ ctx, generate inj env templateName data (some lp) = .ok ctx ∧
      lookupKey ctx "logo_path" = none := by
  have hval : validateLogo env.fs env.staticDir lp = none :=
    validateLogo_none_of_not_safe _ _ _ hsafe
  refine ⟨data, ?_, hdata⟩
  unfold generate
  rw [hsupp, htmpl]
  by_cases hlp : lp = ""
  · simp [hlp]
  · simp [hlp, hval]

/-- Example filesystem for the C4 witness: only "/etc/passwd" exists, as
a regular file; resolution is the identity. -/
def fsOutside : FileSystem :=
  ⟨fun p => p, fun p => decide (p = "/etc/passwd"), fun p => decide (p = "/etc/passwd")⟩

/-- Example generator environment for the C4 witness. -/
def envOutside : GenEnv := ⟨fsOutside, "/app/app/static", ["surat_dinas.html"]⟩

/-- C4 witness: "/etc/passwd" exists and is a regular file but lies
outside the static directory; generation with a supported, present
template succeeds with no logo in the context. -/
theorem C4_logo_fail_closed_witness :
    ∃ ctx, generate (fun s => s) envOutside "surat_dinas" [("nomor", "800")]
        (some "/etc/passwd") = .ok ctx ∧
      lookupKey ctx "logo_path" = none :=
  C4_logo_fail_closed (fun s => s) envOutside "surat_dinas" [("nomor", "800")]
    "/etc/passwd" (by decide) (by decide) (by decide) (by decide)

/-! ### Context flattening of the generic-renderer revision (spec-modelled) -/

/-- Template-context values: strings or nested mappings (the fragment of
Python values the flattening inspects). -/
inductive TValue where
  | str : String → TValue
  | vdict : List (String × TValue) → TValue

/-- Modelled from the spec: the renderer revision consumed by
`app/api/v1/endpoints/letters.py` — whose call
`pdf_service.generate(generic_request, custom_filename=...)` passes the
generic `LetterRequest` carrying the template-specific fields in its
`content` mapping — is not present under `src/`; only this caller is.
Per spec section 4.5, that renderer flattens the nested "content"
substructure into the top-level template context while preserving the
original nested key too, with ordinary dict-update (last write wins)
precedence. -/
def buildTemplateContext (data : List (String × TValue)) : List (String × TValue) :=
  match lookupKey data "content" with
  | some (TValue.vdict entries) =>
      entries.foldl (fun ctx kv => setKey ctx kv.1 kv.2) data
  | _ => data

theorem foldl_setKey_isSome (entries : List (String × TValue)) :
    ∀ (acc : List (String × TValue)) (k : String),
      ((lookupKey acc k).isSome = true ∨ ∃ v, (k, v) ∈ entries) →
      (lookupKey (entries.foldl (fun ctx kv => setKey ctx kv.1 kv.2) acc) k).isSome = true := by
  induction entries with
  | nil =>
    intro acc k h
    rcases h with h | ⟨v, hv⟩
    · exact h
    · cases hv
  | cons e rest ih =>
    intro acc k h
    obtain ⟨k1, v1⟩ := e
    rw [List.foldl_cons]
    rcases h with h | ⟨v, hv⟩
    · exact ih _ k (Or.inl (lookupKey_setKey_preserve _ _ _ _ h))
    · rcases List.mem_cons.mp hv with he | ht
      · rw [Prod.mk.injEq] at he
        obtain ⟨rfl, rfl⟩ := he
        exact ih _ k (Or.inl (by rw [lookupKey_setKey_self]; rfl))
      · exact ih _ k (Or.inr ⟨v, ht⟩)

/-- C5: whenever the data mapping contains a nested "content" mapping,
the template context built by the (spec-modelled) generic renderer
contains every key of the content mapping as a top-level key, and still
contains the original "content" key. -/
theorem C5_content_flattening (data entries : List (String × TValue))
    (h : lookupKey data "content" = some (TValue.vdict entries)) :
    (∀ k v, (k, v) ∈ entries →
      (lookupKey (buildTemplateContext data) k).isSome = true) ∧
    (lookupKey (buildTemplateContext data) "content").isSome = true := by
  unfold buildTemplateContext
  rw [h]
  constructor
  · intro k v hv
    exact foldl_setKey_isSome entries data k (Or.inr ⟨v, hv⟩)
  · exact foldl_setKey_isSome entries data "content" (Or.inl (by rw [h]; rfl))

/-- C5 witness: a concrete mapping with a nested content dictionary. -/
theorem C5_content_flattening_witness :
    lookupKey [("nomor_surat", TValue.str "800"),
        ("content", TValue.vdict [("nama_perusahaan", TValue.str "JTV MALANG")])]
      "content" = some (TValue.vdict [("nama_perusahaan", TValue.str "JTV MALANG")]) ∧
    ((∀ k v, (k, v) ∈ [("nama_perusahaan", TValue.str "JTV MALANG")] →
      (lookupKey (buildTemplateContext
        [("nomor_surat", TValue.str "800"),
         ("content", TValue.vdict [("nama_perusahaan", TValue.str "JTV MALANG")])]) k).isSome = true) ∧
    (lookupKey (buildTemplateContext
        [("nomor_surat", TValue.str "800"),
         ("content", TValue.vdict [("nama_perusahaan", TValue.str "JTV MALANG")])]) "content").isSome = true) :=
  ⟨rfl, C5_content_flattening _ _ rfl⟩

/-! ### The cleanup sweeper, `app/services/cleanup.py` -/

/-- One file of the output directory, carrying the observable state the
sweep uses: its name, its last-modified time, and whether `stat` or
`unlink` raise an `OSError` for it (modelling per-file filesystem
failures). -/
structure PdfFile where
  name : String
  mtime : Int
  statFails : Bool
  unlinkFails : Bool
deriving DecidableEq, Repr

/-- The output directory: whether it exists, and its files. -/
structure DirState where
  dirPresent : Bool
  files : List PdfFile
deriving DecidableEq, Repr

/-- Match of the `*.pdf` glob pattern used by the sweep (pathlib glob via
fnmatch: any name ending in ".pdf"). -/
def matchesPdfGlob (f : PdfFile) : Bool := endsWithB f.name.data pdfExtL

/-- The body of the `for pdf_file in self.pdf_dir.glob("*.pdf")` loop of
`cleanup_old_pdfs`: walk the directory, delete each matching file whose
age strictly exceeds the threshold, count the deletions; a file whose
`stat` or `unlink` raises is logged and kept, without aborting the
sweep; non-matching files are never touched. -/
def sweepFiles (expirySeconds now : Int) : List PdfFile → List PdfFile × Nat
  | [] => ([], 0)
  | f :: fs =>
    let r := sweepFiles expirySeconds now fs
    if matchesPdfGlob f then
      if f.statFails then (f :: r.1, r.2)
      else if now - f.mtime > expirySeconds then
        if f.unlinkFails then (f :: r.1, r.2) else (r.1, r.2 + 1)
      else (f :: r.1, r.2)
    else (f :: r.1, r.2)

/-- `PDFCleanupService.cleanup_old_pdfs`: a no-op returning 0 when the
directory does not exist; otherwise one sweep with threshold
`expiry_minutes * 60` seconds against the current time, returning the
new directory state and the number of files removed. -/
def cleanup_old_pdfs (expiry_minutes now : Int) (st : DirState) : DirState × Nat :=
  if st.dirPresent = false then (st, 0)
  else
    let r := sweepFiles (expiry_minutes * 60) now st.files
    (⟨st.dirPresent, r.1⟩, r.2)

/-- Deletion condition realized by the sweep: a `*.pdf` file whose stat
succeeds, whose age strictly exceeds the threshold, and whose unlink
succeeds. -/
def shouldDelete (expirySeconds now : Int) (f : PdfFile) : Bool :=
  matchesPdfGlob f && !f.statFails &&
    decide (now - f.mtime > expirySeconds) && !f.unlinkFails

theorem sweepFiles_spec (es now : Int) (l : List PdfFile) :
    sweepFiles es now l =
      (l.filter (fun f => !shouldDelete es now f),
       (l.filter (shouldDelete es now)).length) := by
  induction l with
  | nil => rfl
  | cons f fs ih =>
    unfold sweepFiles
    rw [ih]
    cases h1 : matchesPdfGlob f <;>
      cases h2 : f.statFails <;>
        by_cases h3 : now - f.mtime > es <;>
          cases h4 : f.unlinkFails <;>
            simp [shouldDelete, h1, h2, h3, h4, List.filter_cons]

/-- C8: one sweep pass over an existing directory deletes exactly the
files matching `*.pdf` whose stat succeeds, whose age (now minus
last-modified time) strictly exceeds `expiry_minutes * 60` seconds and
whose unlink succeeds; every other file (at or under the threshold,
non-pdf, or raising on stat/unlink) stays, the per-file errors do not
abort the sweep, and the returned count is the number of deleted
files. -/
theorem C8_cleanup_sweep (expiry_minutes now : Int) (st : DirState)
    (h : st.dirPresent = true) :
    (cleanup_old_pdfs expiry_minutes now st).1 =
      ⟨true, st.files.filter (fun f => !shouldDelete (expiry_minutes * 60) now f)⟩ ∧
    (cleanup_old_pdfs expiry_minutes now st).2 =
      (st.files.filter (shouldDelete (expiry_minutes * 60) now)).length := by
  unfold cleanup_old_pdfs
  rw [h]
  simp [sweepFiles_spec, h]

/-- C8 witness: with a 15-minute threshold at time 10000, a directory
holding one file aged 100 seconds and one aged 10000 seconds keeps
exactly the young file and reports one deletion. -/
theorem C8_cleanup_sweep_witness :
    cleanup_old_pdfs 15 10000
        ⟨true, [⟨"fresh.pdf", 9900, false, false⟩, ⟨"old.pdf", 0, false, false⟩]⟩ =
      (⟨true, [⟨"fresh.pdf", 9900, false, false⟩]⟩, 1) := by
  have h := C8_cleanup_sweep 15 10000
    ⟨true, [⟨"fresh.pdf", 9900, false, false⟩, ⟨"old.pdf", 0, false, false⟩]⟩ rfl
  have hpair : cleanup_old_pdfs 15 10000
      ⟨true, [⟨"fresh.pdf", 9900, false, false⟩, ⟨"old.pdf", 0, false, false⟩]⟩ =
      ((cleanup_old_pdfs 15 10000
        ⟨true, [⟨"fresh.pdf", 9900, false, false⟩, ⟨"old.pdf", 0, false, false⟩]⟩).1,
       (cleanup_old_pdfs 15 10000
        ⟨true, [⟨"fresh.pdf", 9900, false, false⟩, ⟨"old.pdf", 0, false, false⟩]⟩).2) := rfl
  rw [hpair, h.1, h.2]
  decide

/-- C6: `parse_indonesian_date` is total, and: for input with at least
three whitespace-separated tokens it returns the day zero-padded to two
digits, the month number looked up case-insensitively in the fixed table
(the literal "00" when unrecognized) and the third token verbatim,
joined by hyphens; for fewer than three tokens it returns the original
string with every space and forward slash replaced by a hyphen; together
with the four concrete examples of the claim. -/
theorem C6_date_parser_characterization :
    (∀ s : String, parse_indonesian_date s =
      match tokens s with
      | d :: m :: y :: _ =>
          String.mk (zfill2 d ++ '-' ::
            ((lookupKey MONTH_MAP (String.mk (lowerStr m))).getD "00").data ++ '-' :: y)
      | _ => fallbackTransform s) ∧
    parse_indonesian_date "1 Juli 2024" = "01-07-2024" ∧
    parse_indonesian_date "31 Desember 2026" = "31-12-2026" ∧
    parse_indonesian_date "1 juli 2024" = "01-07-2024" ∧
    parse_indonesian_date "garbage" = "garbage" := by
  refine ⟨?_, by decide, by decide, by decide, by decide⟩
  intro s
  unfold parse_indonesian_date
  cases h : tokens s with
  | nil => simp [h]
  | cons d t =>
    cases t with
    | nil => simp [h]
    | cons m t2 =>
      cases t2 with
      | nil => simp [h]
      | cons y rest => simp [h]
